import Mathlib

/-!
# Verification of the dexter persistence, cache, provider and orchestration layers

Shallow embedding of the repository's TypeScript sources:

* `src/cache/cache-service.ts`  — `CacheService` (key derivation, TTL, get/set)
* `src/db/database.ts`          — `DatabaseService` (sessions, messages, artifacts)
* `src/providers/financial-datasets-provider.ts` and
  `src/providers/yahoo-finance-provider.ts`      — provider adapters
* `src/interfaces` (financial-provider)          — provider interface / envelope

External effects are modelled explicitly: the filesystem is a finite map from
paths to file contents, `Date.now()` is an explicit integer argument threaded to
every call, `crypto.createHash('md5')...digest('hex')` (library code, not part of
this repository) is a function-valued field of the service, and network calls
are oracle functions passed as arguments.  JavaScript exceptions are modelled
with `Except`/`Option`; a JS value is modelled by the inductive `Json` type and
`JSON.stringify`/`JSON.parse` of an entry written by this code round-trips, so a
well-formed cache file stores its entry structurally while an unreadable or
unparseable file is `CacheFile.corrupt`.

The orchestration loop (ReflectorLoop / agent orchestrator) and the
capability-indexed provider registry are referenced by the repository (its
README, test summary and spec) but their source is not under `src/`; they are
modelled from the spec where needed, and each such definition is marked
`Modelled from the spec:` in its doc comment.
-/

/-- JavaScript values passed as cache parameters and payloads (the `Record<string, any>`
and `T` of `cache-service.ts`), modelled as JSON trees. -/
inductive Json where
  | null
  | bool (b : Bool)
  | num (n : Int)
  | str (s : String)
  | arr (items : List Json)
  | obj (fields : List (String × Json))

/-- Escape backslashes and double quotes, the JSON string-escaping relevant to
the values the cache serializes. -/
def escapeChars : List Char → List Char
  | [] => []
  | c :: rest =>
    if c = '\\' then '\\' :: '\\' :: escapeChars rest
    else if c = '"' then '\\' :: '"' :: escapeChars rest
    else c :: escapeChars rest

/-- Escaped JSON string body. -/
def escapeJsonString (s : String) : String := String.mk (escapeChars s.data)

mutual

/-- Model of `JSON.stringify` on `Json` values. -/
def Json.stringify : Json → String
  | .null => "null"
  | .bool true => "true"
  | .bool false => "false"
  | .num n => toString n
  | .str s => "\"" ++ escapeJsonString s ++ "\""
  | .arr items => "[" ++ stringifyItems items ++ "]"
  | .obj fields => "\x7b" ++ stringifyFields fields ++ "\x7d"

/-- Comma-separated serialization of array items. -/
def stringifyItems : List Json → String
  | [] => ""
  | [j] => Json.stringify j
  | j :: rest => Json.stringify j ++ "," ++ stringifyItems rest

/-- Comma-separated serialization of object fields. -/
def stringifyFields : List (String × Json) → String
  | [] => ""
  | [(k, v)] => "\"" ++ escapeJsonString k ++ "\":" ++ Json.stringify v
  | (k, v) :: rest =>
    "\"" ++ escapeJsonString k ++ "\":" ++ Json.stringify v ++ "," ++ stringifyFields rest

end

/-- Code-point comparison of character lists, the order `Object.keys(params).sort()`
uses (JS sorts keys by comparing their code units).  Written as a structurally
recursive boolean so the kernel can evaluate it. -/
def charListLe : List Char → List Char → Bool
  | [], _ => true
  | _ :: _, [] => false
  | a :: as, b :: bs => if a < b then true else if b < a then false else charListLe as bs

/-- String comparison used to sort parameter keys. -/
def jsStrLe (a b : String) : Bool := charListLe a.data b.data

theorem charListLe_total (a b : List Char) : charListLe a b = true ∨ charListLe b a = true := by
  induction a generalizing b with
  | nil => left; rfl
  | cons x xs ih =>
    cases b with
    | nil => right; rfl
    | cons y ys =>
      rcases lt_trichotomy x y with h | h | h
      · left; simp [charListLe, h]
      · subst h; simp [charListLe, lt_irrefl]; exact ih ys
      · right; simp [charListLe, h]

theorem charListLe_antisymm (a b : List Char) (h1 : charListLe a b = true)
    (h2 : charListLe b a = true) : a = b := by
  induction a generalizing b with
  | nil =>
    cases b with
    | nil => rfl
    | cons y ys => simp [charListLe] at h2
  | cons x xs ih =>
    cases b with
    | nil => simp [charListLe] at h1
    | cons y ys =>
      rcases lt_trichotomy x y with h | h | h
      · simp [charListLe, h, asymm h] at h2
      · subst h
        simp [charListLe, lt_irrefl] at h1 h2
        rw [ih ys h1 h2]
      · simp [charListLe, h, asymm h] at h1

theorem charListLe_trans (a b c : List Char) (h1 : charListLe a b = true)
    (h2 : charListLe b c = true) : charListLe a c = true := by
  induction a generalizing b c with
  | nil => rfl
  | cons x xs ih =>
    cases b with
    | nil => simp [charListLe] at h1
    | cons y ys =>
      cases c with
      | nil => simp [charListLe] at h2
      | cons z zs =>
        rcases lt_trichotomy x y with hxy | hxy | hxy
        · rcases lt_trichotomy y z with hyz | hyz | hyz
          · simp [charListLe, lt_trans hxy hyz]
          · subst hyz; simp [charListLe, hxy]
          · simp [charListLe, hyz, asymm hyz] at h2
        · subst hxy
          simp [charListLe, lt_irrefl] at h1
          rcases lt_trichotomy x z with hyz | hyz | hyz
          · simp [charListLe, hyz]
          · subst hyz
            simp [charListLe, lt_irrefl] at h2 ⊢
            exact ih ys zs h1 h2
          · simp [charListLe, hyz, asymm hyz] at h2
        · simp [charListLe, hxy, asymm hxy] at h1

instance : IsTotal String (fun a b => jsStrLe a b = true) :=
  ⟨fun a b => charListLe_total a.data b.data⟩

instance : IsTrans String (fun a b => jsStrLe a b = true) :=
  ⟨fun a b c => charListLe_trans a.data b.data c.data⟩

instance : IsAntisymm String (fun a b => jsStrLe a b = true) :=
  ⟨fun a b h1 h2 => String.ext (charListLe_antisymm a.data b.data h1 h2)⟩

/-- Property access `params[key]` on the record modelled as an association list
(a JS object cannot hold duplicate keys, so the first binding is the binding). -/
def lookupParam (params : List (String × Json)) (k : String) : Json :=
  match params.find? (fun p => p.1 == k) with
  | some p => p.2
  | none => Json.null

/-- Canonical serialization of the parameter record built by
`CacheService.generateKey` (cache-service.ts lines 37-40): keys sorted, each
rendered as `key=JSON.stringify(params[key])`, joined with `&`. -/
def canonicalParams (params : List (String × Json)) : String :=
  String.intercalate "&"
    ((List.insertionSort (fun a b => jsStrLe a b = true) (params.map Prod.fst)).map
      (fun k => k ++ "=" ++ Json.stringify (lookupParam params k)))

/-- Cache entry as written to disk by `CacheService.set` (`CacheEntry<T>` of
cache-service.ts). -/
structure CacheEntry where
  data : Json
  timestamp : Int
  key : String

/-- Content of one cache file: either the parsed entry, or `corrupt` for a file
whose read or `JSON.parse` fails (both hit the same `catch` in the source). -/
inductive CacheFile where
  | corrupt
  | entry (e : CacheEntry)

/-- The cache directory's filesystem state: an association list from file paths
to contents. -/
def FileSystem : Type := List (String × CacheFile)

/-- Model of `existsSync` + `readFileSync`: content of the file at `path`, if any. -/
def fsLookup : FileSystem → String → Option CacheFile
  | [], _ => none
  | (p, f) :: rest, path => if p == path then some f else fsLookup rest path

/-- Model of `unlinkSync`: remove the file at `path`. -/
def fsRemove : FileSystem → String → FileSystem
  | [], _ => []
  | (p, f) :: rest, path =>
    if p == path then fsRemove rest path else (p, f) :: fsRemove rest path

/-- Model of `writeFileSync`: replace the content of the file at `path`. -/
def fsWrite (fs : FileSystem) (path : String) (file : CacheFile) : FileSystem :=
  (path, file) :: fsRemove fs path

/-- `CacheService` configuration (cache-service.ts lines 19-31).  `md5Hex` models
`createHash('md5').update(s).digest('hex')`, which is node `crypto` library code,
not code of this repository; every theorem below holds for an arbitrary digest
function. -/
structure CacheService where
  cacheDir : String
  ttl : Int
  md5Hex : String → String

/-- `CacheService.generateKey` (lines 36-44): hash the canonicalized parameter
record and prepend the capability prefix. -/
def CacheService.generateKey (svc : CacheService) (pre : String)
    (params : List (String × Json)) : String :=
  let sortedParams := canonicalParams params
  pre ++ "_" ++ svc.md5Hex sortedParams

/-- `CacheService.getFilePath` (lines 49-51). -/
def CacheService.getFilePath (svc : CacheService) (key : String) : String :=
  svc.cacheDir ++ "/" ++ key ++ ".json"

/-- `CacheService.isValid` (lines 56-58): `Date.now() - timestamp < this.ttl`. -/
def CacheService.isValid (svc : CacheService) (now timestamp : Int) : Bool :=
  decide (now - timestamp < svc.ttl)

/-- `CacheService.get` (lines 63-91).  Returns the payload (or `none` for a miss)
together with the filesystem after the call: a missing file is a miss; a corrupt
file (read or parse error) is deleted and reported as a miss; an expired entry is
deleted and reported as a miss.  The function is total: every error branch of
the source is a swallowed `catch`. -/
def CacheService.get (svc : CacheService) (now : Int) (fs : FileSystem) (pre : String)
    (params : List (String × Json)) : Option Json × FileSystem :=
  let key := svc.generateKey pre params
  let filePath := svc.getFilePath key
  match fsLookup fs filePath with
  | none => (none, fs)
  | some CacheFile.corrupt => (none, fsRemove fs filePath)
  | some (CacheFile.entry e) =>
    if svc.isValid now e.timestamp then (some e.data, fs)
    else (none, fsRemove fs filePath)

/-- `CacheService.set` (lines 96-111).  `writeOk` models whether `writeFileSync`
succeeds; on failure the error is swallowed and the filesystem is unchanged. -/
def CacheService.set (svc : CacheService) (now : Int) (writeOk : Bool) (fs : FileSystem)
    (pre : String) (params : List (String × Json)) (data : Json) : FileSystem :=
  let key := svc.generateKey pre params
  let filePath := svc.getFilePath key
  let e : CacheEntry := { data := data, timestamp := now, key := key }
  if writeOk then fsWrite fs filePath (CacheFile.entry e) else fs

theorem find?_key_of_mem_nodup (l : List (String × Json)) (k : String) (v : Json)
    (hnodup : (l.map Prod.fst).Nodup) (hmem : (k, v) ∈ l) :
    l.find? (fun p => p.1 == k) = some (k, v) := by
  induction l with
  | nil => simp at hmem
  | cons hd tl ih =>
    obtain ⟨a, b⟩ := hd
    simp only [List.map_cons, List.nodup_cons] at hnodup
    rcases List.mem_cons.mp hmem with heq | hmem'
    · have hk : k = a := congrArg Prod.fst heq
      have hv : v = b := congrArg Prod.snd heq
      subst hk; subst hv
      exact List.find?_cons_of_pos _ (by simp)
    · by_cases hak : a = k
      · subst hak
        exact absurd (List.mem_map_of_mem Prod.fst hmem') hnodup.1
      · rw [List.find?_cons_of_neg _ (by simp [hak])]
        exact ih hnodup.2 hmem'

theorem lookupParam_eq_of_perm {p1 p2 : List (String × Json)} (hperm : p1.Perm p2)
    (hnodup : (p1.map Prod.fst).Nodup) (k : String) :
    lookupParam p1 k = lookupParam p2 k := by
  have hnodup2 : (p2.map Prod.fst).Nodup := ((hperm.map Prod.fst).nodup_iff).mp hnodup
  by_cases hk : ∃ v, (k, v) ∈ p1
  · obtain ⟨v, hv⟩ := hk
    rw [lookupParam, lookupParam, find?_key_of_mem_nodup p1 k v hnodup hv,
      find?_key_of_mem_nodup p2 k v hnodup2 (hperm.mem_iff.mp hv)]
  · push_neg at hk
    have h1 : p1.find? (fun p => p.1 == k) = none := List.find?_eq_none.mpr (by
      rintro ⟨a, b⟩ hab hcontra
      have ha : a = k := by simpa using hcontra
      subst ha
      exact hk b hab)
    have h2 : p2.find? (fun p => p.1 == k) = none := List.find?_eq_none.mpr (by
      rintro ⟨a, b⟩ hab hcontra
      have ha : a = k := by simpa using hcontra
      subst ha
      exact hk b (hperm.mem_iff.mpr hab))
    rw [lookupParam, lookupParam, h1, h2]

theorem canonicalParams_eq_of_perm {p1 p2 : List (String × Json)} (hperm : p1.Perm p2)
    (hnodup : (p1.map Prod.fst).Nodup) : canonicalParams p1 = canonicalParams p2 := by
  have hkeys : (p1.map Prod.fst).Perm (p2.map Prod.fst) := hperm.map Prod.fst
  have hsort : List.insertionSort (fun a b => jsStrLe a b = true) (p1.map Prod.fst)
      = List.insertionSort (fun a b => jsStrLe a b = true) (p2.map Prod.fst) :=
    List.eq_of_perm_of_sorted
      ((List.perm_insertionSort _ _).trans (hkeys.trans (List.perm_insertionSort _ _).symm))
      (List.sorted_insertionSort _ _) (List.sorted_insertionSort _ _)
  have hfun : (fun k => k ++ "=" ++ Json.stringify (lookupParam p1 k))
      = (fun k => k ++ "=" ++ Json.stringify (lookupParam p2 k)) := by
    funext k
    rw [lookupParam_eq_of_perm hperm hnodup k]
  rw [canonicalParams, canonicalParams, hsort, hfun]

theorem generateKey_eq_of_perm (svc : CacheService) (pre : String)
    {p1 p2 : List (String × Json)} (hperm : p1.Perm p2)
    (hnodup : (p1.map Prod.fst).Nodup) :
    svc.generateKey pre p1 = svc.generateKey pre p2 := by
  unfold CacheService.generateKey
  rw [canonicalParams_eq_of_perm hperm hnodup]

theorem fsLookup_fsRemove_self (fs : FileSystem) (path : String) :
    fsLookup (fsRemove fs path) path = none := by
  induction fs with
  | nil => rfl
  | cons hd rest ih =>
    obtain ⟨p, f⟩ := hd
    by_cases hp : (p == path) = true
    · simp [fsRemove, hp, ih]
    · simp [fsRemove, fsLookup, hp, ih]

theorem fsLookup_fsWrite_self (fs : FileSystem) (path : String) (file : CacheFile) :
    fsLookup (fsWrite fs path file) path = some file := by
  simp [fsWrite, fsLookup]

/-- C2: for every capability prefix, argument record and payload, `get` immediately
after a successful `set` with the same logical arguments — the same key/value
bindings in any insertion order — returns the stored payload, provided the TTL
has not elapsed (`tget - tset < ttl`, exactly the `isValid` window of the source). -/
theorem cache_round_trip (svc : CacheService) (tset tget : Int) (fs : FileSystem)
    (pre : String) (params1 params2 : List (String × Json)) (payload : Json)
    (hperm : params1.Perm params2)
    (hnodup : (params1.map Prod.fst).Nodup)
    (httl : tget - tset < svc.ttl) :
    (svc.get tget (svc.set tset true fs pre params1 payload) pre params2).1
      = some payload := by
  have hkey : svc.generateKey pre params2 = svc.generateKey pre params1 :=
    (generateKey_eq_of_perm svc pre hperm hnodup).symm
  have hvalid : svc.isValid tget tset = true := by
    simp only [CacheService.isValid, decide_eq_true_eq]
    exact httl
  simp only [CacheService.get, CacheService.set, hkey, if_true,
    fsLookup_fsWrite_self, hvalid]

/-- Cache service used to instantiate the cache theorems: the default 24-hour TTL
and a concrete stand-in digest function (the theorems hold for any digest). -/
def svcW : CacheService := ⟨".dexter/cache", 86400000, fun s => s⟩

def paramsW1 : List (String × Json) := [("ticker", Json.str "AAPL"), ("period", Json.str "annual")]

def paramsW2 : List (String × Json) := [("period", Json.str "annual"), ("ticker", Json.str "AAPL")]

theorem cache_round_trip_witness :
    paramsW1.Perm paramsW2 ∧ (paramsW1.map Prod.fst).Nodup ∧ ((5 : Int) - 3 < svcW.ttl) ∧
    (svcW.get 5 (svcW.set 3 true [] "financialdatasets" paramsW1 (Json.num 42))
      "financialdatasets" paramsW2).1 = some (Json.num 42) :=
  ⟨List.Perm.swap _ _ _, by decide, by decide,
    cache_round_trip svcW 3 5 [] "financialdatasets" paramsW1 paramsW2 (Json.num 42)
      (List.Perm.swap _ _ _) (by decide) (by decide)⟩

/-- C3: a cache entry whose stored timestamp is older than the TTL is reported
absent (`get` returns `none`) even though the underlying storage still holds it,
and that same `get` deletes the entry; the expired payload is never returned. -/
theorem cache_expiry (svc : CacheService) (now : Int) (fs : FileSystem) (pre : String)
    (params : List (String × Json)) (e : CacheEntry)
    (hfile : fsLookup fs (svc.getFilePath (svc.generateKey pre params))
      = some (CacheFile.entry e))
    (hold : svc.ttl ≤ now - e.timestamp) :
    (svc.get now fs pre params).1 = none ∧
    fsLookup (svc.get now fs pre params).2 (svc.getFilePath (svc.generateKey pre params))
      = none := by
  have hvalid : svc.isValid now e.timestamp = false := by
    simp only [CacheService.isValid, decide_eq_false_iff_not, not_lt]
    exact hold
  constructor
  · simp only [CacheService.get, hfile, hvalid, Bool.false_eq_true, if_false]
  · simp only [CacheService.get, hfile, hvalid, Bool.false_eq_true, if_false]
    exact fsLookup_fsRemove_self fs _

def pathW : String := svcW.getFilePath (svcW.generateKey "prices" paramsW1)

def entryW : CacheEntry := ⟨Json.num 7, 0, svcW.generateKey "prices" paramsW1⟩

def fsOldW : FileSystem := [(pathW, CacheFile.entry entryW)]

theorem cache_expiry_witness :
    fsLookup fsOldW (svcW.getFilePath (svcW.generateKey "prices" paramsW1))
      = some (CacheFile.entry entryW) ∧
    (svcW.ttl ≤ (86400000 : Int) - entryW.timestamp) ∧
    (svcW.get 86400000 fsOldW "prices" paramsW1).1 = none ∧
    fsLookup (svcW.get 86400000 fsOldW "prices" paramsW1).2
      (svcW.getFilePath (svcW.generateKey "prices" paramsW1)) = none :=
  ⟨rfl, by decide,
    (cache_expiry svcW 86400000 fsOldW "prices" paramsW1 entryW rfl (by decide)).1,
    (cache_expiry svcW 86400000 fsOldW "prices" paramsW1 entryW rfl (by decide)).2⟩

/-- C4: the cache is strictly advisory.  `get` and `set` are total functions of
the modelled state — every read, write or parse error of the source lands in a
swallowed `catch`, so neither operation throws.  A corrupt file (failed read or
parse) makes `get` return `none` (a miss) and is deleted on that access, and a
`set` whose underlying write fails leaves the filesystem unchanged and still
returns normally. -/
theorem cache_errors_swallowed (svc : CacheService) (now : Int) (fs : FileSystem)
    (pre : String) (params : List (String × Json)) (data : Json)
    (hfile : fsLookup fs (svc.getFilePath (svc.generateKey pre params))
      = some CacheFile.corrupt) :
    (svc.get now fs pre params).1 = none ∧
    fsLookup (svc.get now fs pre params).2 (svc.getFilePath (svc.generateKey pre params))
      = none ∧
    svc.set now false fs pre params data = fs := by
  refine ⟨?_, ?_, rfl⟩
  · simp only [CacheService.get, hfile]
  · simp only [CacheService.get, hfile]
    exact fsLookup_fsRemove_self fs _

def fsBadW : FileSystem := [(pathW, CacheFile.corrupt)]

theorem cache_errors_swallowed_witness :
    fsLookup fsBadW (svcW.getFilePath (svcW.generateKey "prices" paramsW1))
      = some CacheFile.corrupt ∧
    (svcW.get 5 fsBadW "prices" paramsW1).1 = none ∧
    fsLookup (svcW.get 5 fsBadW "prices" paramsW1).2
      (svcW.getFilePath (svcW.generateKey "prices" paramsW1)) = none ∧
    svcW.set 5 false fsBadW "prices" paramsW1 (Json.num 1) = fsBadW :=
  ⟨rfl,
    (cache_errors_swallowed svcW 5 fsBadW "prices" paramsW1 (Json.num 1) rfl).1,
    (cache_errors_swallowed svcW 5 fsBadW "prices" paramsW1 (Json.num 1) rfl).2.1,
    (cache_errors_swallowed svcW 5 fsBadW "prices" paramsW1 (Json.num 1) rfl).2.2⟩

/-- Session status union `'active' | 'completed' | 'error'` of database.ts; the
SQL schema enforces the same domain with a `CHECK` constraint. -/
inductive SessionStatus where
  | active
  | completed
  | error
deriving DecidableEq

/-- String stored in the `status` column for each status value. -/
def statusString : SessionStatus → String
  | .active => "active"
  | .completed => "completed"
  | .error => "error"

/-- Message role union `'user' | 'assistant' | 'system'` of database.ts. -/
inductive Role where
  | user
  | assistant
  | system
deriving DecidableEq

/-- Row of the `sessions` table (`Session` interface of database.ts). -/
structure Session where
  id : String
  created_at : Int
  updated_at : Int
  status : SessionStatus
  query : Option String
deriving DecidableEq

/-- Row of the `messages` table (`Message` interface of database.ts). -/
structure Message where
  id : String
  session_id : String
  role : Role
  content : String
  timestamp : Int
deriving DecidableEq

/-- Row of the `research_artifacts` table (`ResearchArtifact` interface of
database.ts); `data_json` holds `JSON.stringify(data)`. -/
structure ResearchArtifact where
  id : String
  session_id : String
  data_json : String
  source : String
  timestamp : Int
deriving DecidableEq

/-- State of the SQLite database: the three tables, each as its rows in rowid
(insertion) order. -/
structure DbState where
  sessions : List Session
  messages : List Message
  artifacts : List ResearchArtifact
deriving DecidableEq

/-- `DatabaseService.createSession` (database.ts lines 96-113): INSERT a fresh
row with `created_at = updated_at = Date.now()` and status `'active'`, and
return it. -/
def DatabaseService.createSession (st : DbState) (now : Int) (id : String)
    (query : Option String) : DbState × Session :=
  let session : Session :=
    { id := id, created_at := now, updated_at := now, status := SessionStatus.active,
      query := query }
  ({ st with sessions := st.sessions ++ [session] }, session)

/-- `DatabaseService.getSession` (lines 115-118): `SELECT * FROM sessions WHERE
id = ?` via `stmt.get`, i.e. the first matching row or null. -/
def DatabaseService.getSession (st : DbState) (id : String) : Option Session :=
  st.sessions.find? (fun s => s.id == id)

/-- `DatabaseService.updateSessionStatus` (lines 129-136): `UPDATE sessions SET
status = ?, updated_at = ? WHERE id = ?`. -/
def DatabaseService.updateSessionStatus (st : DbState) (now : Int) (id : String)
    (status : SessionStatus) : DbState :=
  { st with
    sessions := st.sessions.map (fun s =>
      if s.id == id then { s with status := status, updated_at := now } else s) }

/-- `DatabaseService.deleteSession` (lines 138-141): `DELETE FROM sessions WHERE
id = ?` (the connection never enables `PRAGMA foreign_keys`, so the declared
`ON DELETE CASCADE` does not fire and child rows stay). -/
def DatabaseService.deleteSession (st : DbState) (id : String) : DbState :=
  { st with sessions := st.sessions.filter (fun s => !(s.id == id)) }

/-- Message row built by `DatabaseService.addMessage` (lines 144-151); `now`
models `Date.now()` and `suffix` the `Math.random().toString(36).substr(2, 9)`
part of the generated id. -/
def mkMessage (now : Int) (suffix sessionId : String) (role : Role)
    (content : String) : Message :=
  { id := "msg_" ++ toString now ++ "_" ++ suffix, session_id := sessionId,
    role := role, content := content, timestamp := now }

/-- `DatabaseService.addMessage` (lines 144-160): INSERT the new row and return it. -/
def DatabaseService.addMessage (st : DbState) (now : Int) (suffix sessionId : String)
    (role : Role) (content : String) : DbState × Message :=
  let message := mkMessage now suffix sessionId role content
  ({ st with messages := st.messages ++ [message] }, message)

/-- `DatabaseService.getSessionMessages` (lines 162-169): `SELECT * FROM messages
WHERE session_id = ? ORDER BY timestamp ASC`.  The sort is modelled as a stable
insertion sort on the rowid-ordered rows: SQLite returns equal-timestamp rows of
this schema in rowid order. -/
def DatabaseService.getSessionMessages (st : DbState) (sessionId : String) : List Message :=
  List.insertionSort (fun a b => a.timestamp ≤ b.timestamp)
    (st.messages.filter (fun m => m.session_id == sessionId))

/-- Artifact row built by `DatabaseService.addResearchArtifact` (lines 172-179);
`data_json` is `JSON.stringify(data)`. -/
def mkArtifact (now : Int) (suffix sessionId : String) (data : Json)
    (source : String) : ResearchArtifact :=
  { id := "artifact_" ++ toString now ++ "_" ++ suffix, session_id := sessionId,
    data_json := Json.stringify data, source := source, timestamp := now }

/-- `DatabaseService.addResearchArtifact` (lines 172-188): INSERT the new row and
return it. -/
def DatabaseService.addResearchArtifact (st : DbState) (now : Int)
    (suffix sessionId : String) (data : Json) (source : String) :
    DbState × ResearchArtifact :=
  let artifact := mkArtifact now suffix sessionId data source
  ({ st with artifacts := st.artifacts ++ [artifact] }, artifact)

/-- `DatabaseService.getSessionArtifacts` (lines 190-197): `SELECT * FROM
research_artifacts WHERE session_id = ? ORDER BY timestamp ASC`. -/
def DatabaseService.getSessionArtifacts (st : DbState) (sessionId : String) :
    List ResearchArtifact :=
  List.insertionSort (fun a b => a.timestamp ≤ b.timestamp)
    (st.artifacts.filter (fun a => a.session_id == sessionId))

/-- Database state used to refute C5: one stored session `s1` and no rows for
any other id. -/
def dbC5 : DbState := ⟨[⟨"s1", 0, 0, SessionStatus.active, none⟩], [], []⟩

/-- C5 counterexample: reading the unknown sessionId `missing` does not fail.
`getSession` returns null (`stmt.get` yields no row) and the history reads return
ordinary empty lists; `database.ts` has no NotFound signalling on any read path,
so the claim that an unknown sessionId is reported as a NotFound error — rather
than as these ordinary empty results — is false on this input. -/
theorem unknown_session_counterexample :
    DatabaseService.getSession dbC5 "missing" = none ∧
    DatabaseService.getSessionMessages dbC5 "missing" = [] ∧
    DatabaseService.getSessionArtifacts dbC5 "missing" = [] :=
  ⟨rfl, rfl, rfl⟩

/-- C5 as amended: for every sessionId with no rows in the store, `getSession`
returns null and the history reads (`getSessionMessages`, `getSessionArtifacts`)
return empty lists; no NotFound error is raised on any of these reads. -/
theorem unknown_session_reads_empty (st : DbState) (id : String)
    (hs : ∀ s ∈ st.sessions, s.id ≠ id)
    (hm : ∀ m ∈ st.messages, m.session_id ≠ id)
    (ha : ∀ a ∈ st.artifacts, a.session_id ≠ id) :
    DatabaseService.getSession st id = none ∧
    DatabaseService.getSessionMessages st id = [] ∧
    DatabaseService.getSessionArtifacts st id = [] := by
  refine ⟨?_, ?_, ?_⟩
  · exact List.find?_eq_none.mpr (fun s hsm => by simpa using hs s hsm)
  · have hfil : st.messages.filter (fun m => m.session_id == id) = [] :=
      List.filter_eq_nil_iff.mpr (fun m hmm => by simpa using hm m hmm)
    rw [DatabaseService.getSessionMessages, hfil]
    rfl
  · have hfil : st.artifacts.filter (fun a => a.session_id == id) = [] :=
      List.filter_eq_nil_iff.mpr (fun a ham => by simpa using ha a ham)
    rw [DatabaseService.getSessionArtifacts, hfil]
    rfl

theorem unknown_session_reads_empty_witness :
    (∀ s ∈ dbC5.sessions, s.id ≠ "missing") ∧
    (∀ m ∈ dbC5.messages, m.session_id ≠ "missing") ∧
    (∀ a ∈ dbC5.artifacts, a.session_id ≠ "missing") ∧
    (DatabaseService.getSession dbC5 "missing" = none ∧
      DatabaseService.getSessionMessages dbC5 "missing" = [] ∧
      DatabaseService.getSessionArtifacts dbC5 "missing" = []) :=
  ⟨by decide, by decide, by decide,
    unknown_session_reads_empty dbC5 "missing" (by decide) (by decide) (by decide)⟩

/-- One append against the database: an `addMessage` or `addResearchArtifact`
call together with the `Date.now()` value observed by that call. -/
inductive DbOp where
  | putMessage (now : Int) (suffix sessionId : String) (role : Role) (content : String)
  | putArtifact (now : Int) (suffix sessionId : String) (data : Json) (source : String)

/-- Apply one append to the database state. -/
def applyOp (st : DbState) : DbOp → DbState
  | .putMessage now suffix sid role content =>
    (DatabaseService.addMessage st now suffix sid role content).1
  | .putArtifact now suffix sid data source =>
    (DatabaseService.addResearchArtifact st now suffix sid data source).1

/-- Apply a sequence of appends in order. -/
def applyOps : DbState → List DbOp → DbState
  | st, [] => st
  | st, op :: rest => applyOps (applyOp st op) rest

/-- The `Date.now()` value of an append. -/
def opTime : DbOp → Int
  | .putMessage now _ _ _ _ => now
  | .putArtifact now _ _ _ _ => now

/-- The message rows a sequence of appends inserts, in insertion order. -/
def opMessages : List DbOp → List Message
  | [] => []
  | .putMessage now suffix sid role content :: rest =>
    mkMessage now suffix sid role content :: opMessages rest
  | .putArtifact _ _ _ _ _ :: rest => opMessages rest

/-- The artifact rows a sequence of appends inserts, in insertion order. -/
def opArtifacts : List DbOp → List ResearchArtifact
  | [] => []
  | .putMessage _ _ _ _ _ :: rest => opArtifacts rest
  | .putArtifact now suffix sid data source :: rest =>
    mkArtifact now suffix sid data source :: opArtifacts rest

theorem applyOps_messages (st : DbState) (ops : List DbOp) :
    (applyOps st ops).messages = st.messages ++ opMessages ops := by
  induction ops generalizing st with
  | nil => simp [applyOps, opMessages]
  | cons op rest ih =>
    cases op with
    | putMessage now suffix sid role content =>
      rw [applyOps, applyOp, ih]
      simp [DatabaseService.addMessage, opMessages]
    | putArtifact now suffix sid data source =>
      rw [applyOps, applyOp, ih]
      simp [DatabaseService.addResearchArtifact, opMessages]

theorem applyOps_artifacts (st : DbState) (ops : List DbOp) :
    (applyOps st ops).artifacts = st.artifacts ++ opArtifacts ops := by
  induction ops generalizing st with
  | nil => simp [applyOps, opArtifacts]
  | cons op rest ih =>
    cases op with
    | putMessage now suffix sid role content =>
      rw [applyOps, applyOp, ih]
      simp [DatabaseService.addMessage, opArtifacts]
    | putArtifact now suffix sid data source =>
      rw [applyOps, applyOp, ih]
      simp [DatabaseService.addResearchArtifact, opArtifacts]

theorem opMessages_timestamps_sublist (ops : List DbOp) :
    ((opMessages ops).map Message.timestamp).Sublist (ops.map opTime) := by
  induction ops with
  | nil => simp [opMessages]
  | cons op rest ih =>
    cases op with
    | putMessage now suffix sid role content =>
      simp only [opMessages, List.map_cons, mkMessage, opTime]
      exact ih.cons₂ now
    | putArtifact now suffix sid data source =>
      simp only [opMessages, List.map_cons, opTime]
      exact ih.cons now

theorem opArtifacts_timestamps_sublist (ops : List DbOp) :
    ((opArtifacts ops).map ResearchArtifact.timestamp).Sublist (ops.map opTime) := by
  induction ops with
  | nil => simp [opArtifacts]
  | cons op rest ih =>
    cases op with
    | putMessage now suffix sid role content =>
      simp only [opArtifacts, List.map_cons, opTime]
      exact ih.cons now
    | putArtifact now suffix sid data source =>
      simp only [opArtifacts, List.map_cons, mkArtifact, opTime]
      exact ih.cons₂ now

/-- C7: after any sequence of `addMessage`/`addResearchArtifact` calls whose
`Date.now()` values are nondecreasing (the wall clock is monotone), the stored
tables hold exactly the appended rows in append order, and the history reads
(`ORDER BY timestamp ASC`, ties resolved in rowid/insertion order) return
exactly the session's rows in the order they were appended. -/
theorem history_append_order (sessions0 : List Session) (ops : List DbOp) (sid : String)
    (hmono : List.Chain' (· ≤ ·) (ops.map opTime)) :
    DatabaseService.getSessionMessages (applyOps ⟨sessions0, [], []⟩ ops) sid
      = (opMessages ops).filter (fun m => m.session_id == sid) ∧
    DatabaseService.getSessionArtifacts (applyOps ⟨sessions0, [], []⟩ ops) sid
      = (opArtifacts ops).filter (fun a => a.session_id == sid) ∧
    (applyOps ⟨sessions0, [], []⟩ ops).messages = opMessages ops ∧
    (applyOps ⟨sessions0, [], []⟩ ops).artifacts = opArtifacts ops := by
  have hpw : (ops.map opTime).Pairwise (· ≤ ·) := List.chain'_iff_pairwise.mp hmono
  have hmsg : (applyOps ⟨sessions0, [], []⟩ ops).messages = opMessages ops := by
    simpa using applyOps_messages ⟨sessions0, [], []⟩ ops
  have hart : (applyOps ⟨sessions0, [], []⟩ ops).artifacts = opArtifacts ops := by
    simpa using applyOps_artifacts ⟨sessions0, [], []⟩ ops
  have hpwm : (opMessages ops).Pairwise (fun a b => a.timestamp ≤ b.timestamp) :=
    List.pairwise_map.mp (List.Pairwise.sublist (opMessages_timestamps_sublist ops) hpw)
  have hpwa : (opArtifacts ops).Pairwise (fun a b => a.timestamp ≤ b.timestamp) :=
    List.pairwise_map.mp (List.Pairwise.sublist (opArtifacts_timestamps_sublist ops) hpw)
  refine ⟨?_, ?_, hmsg, hart⟩
  · rw [DatabaseService.getSessionMessages, hmsg]
    exact List.Sorted.insertionSort_eq (hpwm.filter _)
  · rw [DatabaseService.getSessionArtifacts, hart]
    exact List.Sorted.insertionSort_eq (hpwa.filter _)

/-- Append sequence used to instantiate C7, with a timestamp tie between the two
messages. -/
def opsW : List DbOp :=
  [DbOp.putMessage 1 "aaa" "sess" Role.user "What was Apple Q4 revenue?",
   DbOp.putMessage 1 "bbb" "sess" Role.assistant "Fetching income statements.",
   DbOp.putArtifact 2 "ccc" "sess" (Json.num 42) "https://api.financialdatasets.ai/x"]

theorem history_append_order_witness :
    List.Chain' (· ≤ ·) (opsW.map opTime) ∧
    (DatabaseService.getSessionMessages (applyOps ⟨[], [], []⟩ opsW) "sess"
      = (opMessages opsW).filter (fun m => m.session_id == "sess") ∧
    DatabaseService.getSessionArtifacts (applyOps ⟨[], [], []⟩ opsW) "sess"
      = (opArtifacts opsW).filter (fun a => a.session_id == "sess") ∧
    (applyOps ⟨[], [], []⟩ opsW).messages = opMessages opsW ∧
    (applyOps ⟨[], [], []⟩ opsW).artifacts = opArtifacts opsW) :=
  ⟨by simp [opsW, opTime, List.chain'_cons], history_append_order [] opsW "sess"
    (by simp [opsW, opTime, List.chain'_cons])⟩

/-- C9: frame property of `updateSessionStatus`.  The update touches only the
`status` and `updated_at` columns of the rows whose `id` matches: messages and
artifacts are untouched, the session table keeps its length, every row keeps its
`id`, `created_at` and `query`, a row with a different id is wholly unchanged,
and the matching row gets exactly the new status and `updated_at = Date.now()`. -/
theorem updateSessionStatus_frame (st : DbState) (now : Int) (id : String)
    (status : SessionStatus) :
    (DatabaseService.updateSessionStatus st now id status).messages = st.messages ∧
    (DatabaseService.updateSessionStatus st now id status).artifacts = st.artifacts ∧
    (DatabaseService.updateSessionStatus st now id status).sessions.length
      = st.sessions.length ∧
    ∀ i : Nat, ∀ s : Session, st.sessions[i]? = some s →
      ∃ s', (DatabaseService.updateSessionStatus st now id status).sessions[i]? = some s' ∧
        s'.id = s.id ∧ s'.created_at = s.created_at ∧ s'.query = s.query ∧
        (s.id ≠ id → s' = s) ∧
        (s.id = id → s'.status = status ∧ s'.updated_at = now) := by
  refine ⟨rfl, rfl, by simp [DatabaseService.updateSessionStatus], ?_⟩
  intro i s hs
  by_cases h : s.id = id
  · refine ⟨{ s with status := status, updated_at := now }, ?_, rfl, rfl, rfl,
      fun hne => absurd h hne, fun _ => ⟨rfl, rfl⟩⟩
    simp [DatabaseService.updateSessionStatus, List.getElem?_map, hs, h]
  · refine ⟨s, ?_, rfl, rfl, rfl, fun _ => rfl, fun he => absurd he h⟩
    simp [DatabaseService.updateSessionStatus, List.getElem?_map, hs, h]

/-- Two-session database used to instantiate the frame theorem. -/
def dbW : DbState :=
  ⟨[⟨"s1", 0, 0, SessionStatus.active, some "q1"⟩,
    ⟨"s2", 1, 1, SessionStatus.active, some "q2"⟩],
   [mkMessage 2 "aaa" "s1" Role.user "hello"], []⟩

theorem updateSessionStatus_frame_witness :
    dbW.sessions[0]? = some ⟨"s1", 0, 0, SessionStatus.active, some "q1"⟩ ∧
    ∃ s', (DatabaseService.updateSessionStatus dbW 9 "s1" SessionStatus.completed).sessions[0]?
        = some s' ∧
      s'.id = "s1" ∧ s'.created_at = 0 ∧ s'.query = some "q1" ∧
      ("s1" ≠ "s1" → s' = ⟨"s1", 0, 0, SessionStatus.active, some "q1"⟩) ∧
      ("s1" = "s1" → s'.status = SessionStatus.completed ∧ s'.updated_at = 9) :=
  ⟨rfl, (updateSessionStatus_frame dbW 9 "s1" SessionStatus.completed).2.2.2 0
    ⟨"s1", 0, 0, SessionStatus.active, some "q1"⟩ rfl⟩

/-- C10: session-status invariant.  Every stored session's status renders to one
of the strings `'active'`, `'completed'`, `'error'` (the domain the SQL CHECK
constraint and the TypeScript union enforce — operations cannot leave it), and
`createSession` establishes a session with status `'active'`, `created_at` equal
to `updated_at`, and appends exactly that row to the store. -/
theorem session_status_invariant :
    (∀ st : DbState, ∀ s ∈ st.sessions,
      statusString s.status = "active" ∨ statusString s.status = "completed" ∨
      statusString s.status = "error") ∧
    (∀ (st : DbState) (now : Int) (id : String) (q : Option String),
      (DatabaseService.createSession st now id q).2.status = SessionStatus.active ∧
      (DatabaseService.createSession st now id q).2.created_at
        = (DatabaseService.createSession st now id q).2.updated_at ∧
      (DatabaseService.createSession st now id q).1.sessions
        = st.sessions ++ [(DatabaseService.createSession st now id q).2]) := by
  constructor
  · intro st s _
    cases s.status <;> simp [statusString]
  · intro st now id q
    exact ⟨rfl, rfl, rfl⟩

theorem session_status_invariant_witness :
    ((⟨"s1", 0, 0, SessionStatus.active, none⟩ : Session) ∈ dbC5.sessions) ∧
    (statusString SessionStatus.active = "active" ∨
      statusString SessionStatus.active = "completed" ∨
      statusString SessionStatus.active = "error") :=
  ⟨by decide,
    session_status_invariant.1 dbC5 ⟨"s1", 0, 0, SessionStatus.active, none⟩ (by decide)⟩

/-- The capability set of `IFinancialProvider` (interfaces, lines 73-101): the
seven required operations plus the five optional ones. -/
inductive Capability where
  | incomeStatements
  | balanceSheets
  | cashFlowStatements
  | allFinancialStatements
  | priceSnapshot
  | priceHistory
  | financialMetrics
  | news
  | analystEstimates
  | insiderTrades
  | filings
  | segmentedRevenues
deriving DecidableEq

/-- Statement period union `'annual' | 'quarterly' | 'ttm'`. -/
inductive Period where
  | annual
  | quarterly
  | ttm
deriving DecidableEq

/-- String value of a period, as interpolated into URLs and source strings. -/
def periodString : Period → String
  | .annual => "annual"
  | .quarterly => "quarterly"
  | .ttm => "ttm"

/-- `YahooFinanceProvider.formatPeriod` (yahoo-finance-provider.ts lines 23-26):
Yahoo has no TTM, so anything but annual maps to quarterly. -/
def formatPeriod : Period → Period
  | .annual => .annual
  | _ => .quarterly

/-- `FinancialStatementsParams` of the provider interface. -/
structure FinancialStatementsParams where
  ticker : String
  period : Period
  limit : Option Nat := none
  report_period_gt : Option String := none
  report_period_gte : Option String := none
  report_period_lt : Option String := none
  report_period_lte : Option String := none

/-- `PriceParams` of the provider interface. -/
structure PriceParams where
  ticker : String
  date : Option String := none

/-- `PriceHistoryParams` of the provider interface. -/
structure PriceHistoryParams where
  ticker : String
  start_date : Option String := none
  end_date : Option String := none
  limit : Option Nat := none

/-- `MetricsParams` of the provider interface. -/
structure MetricsParams where
  ticker : String
  period : Option Period := none
  limit : Option Nat := none

/-- `NewsParams` of the provider interface (`ticker` is optional here). -/
structure NewsParams where
  ticker : Option String := none
  query : Option String := none
  start_date : Option String := none
  end_date : Option String := none
  limit : Option Nat := none

/-- `EstimatesParams` of the provider interface. -/
structure EstimatesParams where
  ticker : String
  period : Option Period := none
  limit : Option Nat := none

/-- `InsiderTradesParams` of the provider interface. -/
structure InsiderTradesParams where
  ticker : String
  start_date : Option String := none
  end_date : Option String := none
  limit : Option Nat := none

/-- `FilingsParams` of the provider interface. -/
structure FilingsParams where
  ticker : String
  form_type : Option (List String) := none
  start_date : Option String := none
  end_date : Option String := none
  limit : Option Nat := none

/-- Parameter type each capability's operation takes. -/
def CapParams : Capability → Type
  | .incomeStatements => FinancialStatementsParams
  | .balanceSheets => FinancialStatementsParams
  | .cashFlowStatements => FinancialStatementsParams
  | .allFinancialStatements => FinancialStatementsParams
  | .priceSnapshot => PriceParams
  | .priceHistory => PriceHistoryParams
  | .financialMetrics => MetricsParams
  | .news => NewsParams
  | .analystEstimates => EstimatesParams
  | .insiderTrades => InsiderTradesParams
  | .filings => FilingsParams
  | .segmentedRevenues => FinancialStatementsParams

/-- `ProviderResponse` envelope of the provider interface (lines 65-68):
`data` plus a `source` string (URL or synthetic provenance identifier). -/
structure ProviderResponse where
  data : Json
  source : String

/-- JS truthiness on `Json` values, for the `x || y` defaults of the sources. -/
def jsFalsy : Json → Bool
  | .null => true
  | .bool false => true
  | .num 0 => true
  | .str "" => true
  | _ => false

/-- JS `x || d`. -/
def jsOr (j d : Json) : Json := if jsFalsy j then d else j

/-- JS optional-chained property access `j?.k` (undefined on non-objects). -/
def Json.getField : Json → String → Json
  | .obj fields, k => lookupParam fields k
  | _, _ => Json.null

/-- JS `xs?.slice(0, n) || []`. -/
def sliceOrEmptyArr (j : Json) (n : Nat) : Json :=
  match j with
  | .arr items => .arr (items.take n)
  | _ => .arr []

/-- JS `n || d` on an optional numeric parameter (`0` is falsy). -/
def orNat (n : Option Nat) (d : Nat) : Nat :=
  match n with
  | some m => if m = 0 then d else m
  | none => d

/-- JS `s || d` on an optional string parameter (`''` is falsy). -/
def orStr (s : Option String) (d : String) : String :=
  match s with
  | some t => if t = "" then d else t
  | none => d

/-- Oracle for the `yahoo-finance2` library (external code): each call either
resolves to a JSON payload or rejects with a message; `today` models the
`new Date().toISOString().split('T')[0]` default date. -/
structure YahooApi where
  quoteSummary : String → Except String Json
  quote : String → Except String Json
  historical : String → Except String Json
  search : String → Except String Json
  today : String

/-- `YahooFinanceProvider.getIncomeStatements` (yahoo-finance-provider.ts lines
28-49): statements from the annual or quarterly module, sliced to the limit,
with a synthetic provenance source string. -/
def YahooFinanceProvider.getIncomeStatements (api : YahooApi)
    (params : FinancialStatementsParams) : Except String ProviderResponse :=
  match api.quoteSummary params.ticker with
  | .error e => .error ("Yahoo Finance API error: " ++ e)
  | .ok qs =>
    let period := formatPeriod params.period
    let statements :=
      if period = Period.annual then
        (qs.getField "incomeStatementHistory").getField "incomeStatementHistory"
      else (qs.getField "incomeStatementHistoryQuarterly").getField "incomeStatementHistory"
    let limited := sliceOrEmptyArr statements (orNat params.limit 10)
    .ok ⟨Json.obj [("income_statements", limited)],
      "yahoo-finance:" ++ params.ticker ++ ":income-statements:" ++ periodString period⟩

/-- `YahooFinanceProvider.getBalanceSheets` (lines 51-72). -/
def YahooFinanceProvider.getBalanceSheets (api : YahooApi)
    (params : FinancialStatementsParams) : Except String ProviderResponse :=
  match api.quoteSummary params.ticker with
  | .error e => .error ("Yahoo Finance API error: " ++ e)
  | .ok qs =>
    let period := formatPeriod params.period
    let statements :=
      if period = Period.annual then
        (qs.getField "balanceSheetHistory").getField "balanceSheetStatements"
      else (qs.getField "balanceSheetHistoryQuarterly").getField "balanceSheetStatements"
    let limited := sliceOrEmptyArr statements (orNat params.limit 10)
    .ok ⟨Json.obj [("balance_sheets", limited)],
      "yahoo-finance:" ++ params.ticker ++ ":balance-sheets:" ++ periodString period⟩

/-- `YahooFinanceProvider.getCashFlowStatements` (lines 74-95). -/
def YahooFinanceProvider.getCashFlowStatements (api : YahooApi)
    (params : FinancialStatementsParams) : Except String ProviderResponse :=
  match api.quoteSummary params.ticker with
  | .error e => .error ("Yahoo Finance API error: " ++ e)
  | .ok qs =>
    let period := formatPeriod params.period
    let statements :=
      if period = Period.annual then
        (qs.getField "cashflowStatementHistory").getField "cashflowStatements"
      else (qs.getField "cashflowStatementHistoryQuarterly").getField "cashflowStatements"
    let limited := sliceOrEmptyArr statements (orNat params.limit 10)
    .ok ⟨Json.obj [("cash_flow_statements", limited)],
      "yahoo-finance:" ++ params.ticker ++ ":cash-flow:" ++ periodString period⟩

/-- `YahooFinanceProvider.getAllFinancialStatements` (lines 97-113): the three
statement calls combined (`Promise.all` rejects if any rejects); note the source
interpolates the raw `params.period`, not the formatted one. -/
def YahooFinanceProvider.getAllFinancialStatements (api : YahooApi)
    (params : FinancialStatementsParams) : Except String ProviderResponse :=
  match YahooFinanceProvider.getIncomeStatements api params,
      YahooFinanceProvider.getBalanceSheets api params,
      YahooFinanceProvider.getCashFlowStatements api params with
  | .ok inc, .ok bal, .ok cf =>
    .ok ⟨Json.obj [("income_statements", inc.data.getField "income_statements"),
        ("balance_sheets", bal.data.getField "balance_sheets"),
        ("cash_flow_statements", cf.data.getField "cash_flow_statements")],
      "yahoo-finance:" ++ params.ticker ++ ":all-statements:" ++ periodString params.period⟩
  | .error e, _, _ => .error e
  | .ok _, .error e, _ => .error e
  | .ok _, .ok _, .error e => .error e

/-- `YahooFinanceProvider.getPriceSnapshot` (lines 115-139). -/
def YahooFinanceProvider.getPriceSnapshot (api : YahooApi) (params : PriceParams) :
    Except String ProviderResponse :=
  match api.quote params.ticker with
  | .error e => .error ("Yahoo Finance API error: " ++ e)
  | .ok q =>
    .ok ⟨Json.obj [("prices", Json.arr [Json.obj [
        ("ticker", Json.str params.ticker),
        ("date", Json.str (orStr params.date api.today)),
        ("price", q.getField "regularMarketPrice"),
        ("open", q.getField "regularMarketOpen"),
        ("high", q.getField "regularMarketDayHigh"),
        ("low", q.getField "regularMarketDayLow"),
        ("close", q.getField "regularMarketPrice"),
        ("volume", q.getField "regularMarketVolume")]])],
      "yahoo-finance:" ++ params.ticker ++ ":price-snapshot"⟩

/-- Row mapping of `getPriceHistory` (lines 152-160); date formatting of the
library's `Date` value is abstracted to the field itself. -/
def mapPriceRow (ticker : String) (h : Json) : Json :=
  Json.obj [("ticker", Json.str ticker), ("date", h.getField "date"),
    ("open", h.getField "open"), ("high", h.getField "high"),
    ("low", h.getField "low"), ("close", h.getField "close"),
    ("volume", h.getField "volume")]

/-- `YahooFinanceProvider.getPriceHistory` (lines 141-169). -/
def YahooFinanceProvider.getPriceHistory (api : YahooApi) (params : PriceHistoryParams) :
    Except String ProviderResponse :=
  match api.historical params.ticker with
  | .error e => .error ("Yahoo Finance API error: " ++ e)
  | .ok history =>
    let items := match history with | .arr xs => xs | _ => []
    let limited := items.take (orNat params.limit items.length)
    .ok ⟨Json.obj [("prices", Json.arr (limited.map (mapPriceRow params.ticker)))],
      "yahoo-finance:" ++ params.ticker ++ ":price-history"⟩

/-- `YahooFinanceProvider.getFinancialMetrics` (lines 171-199). -/
def YahooFinanceProvider.getFinancialMetrics (api : YahooApi) (params : MetricsParams) :
    Except String ProviderResponse :=
  match api.quoteSummary params.ticker with
  | .error e => .error ("Yahoo Finance API error: " ++ e)
  | .ok qs =>
    let metrics := Json.obj [
      ("pe_ratio", (qs.getField "summaryDetail").getField "trailingPE"),
      ("forward_pe", (qs.getField "summaryDetail").getField "forwardPE"),
      ("peg_ratio", (qs.getField "defaultKeyStatistics").getField "pegRatio"),
      ("price_to_book", (qs.getField "defaultKeyStatistics").getField "priceToBook"),
      ("price_to_sales", (qs.getField "summaryDetail").getField "priceToSalesTrailing12Months"),
      ("profit_margin", (qs.getField "financialData").getField "profitMargins"),
      ("operating_margin", (qs.getField "financialData").getField "operatingMargins"),
      ("roe", (qs.getField "financialData").getField "returnOnEquity"),
      ("roa", (qs.getField "financialData").getField "returnOnAssets"),
      ("debt_to_equity", (qs.getField "financialData").getField "debtToEquity"),
      ("current_ratio", (qs.getField "financialData").getField "currentRatio"),
      ("quick_ratio", (qs.getField "financialData").getField "quickRatio")]
    .ok ⟨Json.obj [("metrics", Json.arr [metrics])],
      "yahoo-finance:" ++ params.ticker ++ ":metrics"⟩

/-- `YahooFinanceProvider.getNews` (lines 201-218): a missing (or empty, JS
falsy) ticker throws inside the `try` and is re-wrapped by the `catch`. -/
def YahooFinanceProvider.getNews (api : YahooApi) (params : NewsParams) :
    Except String ProviderResponse :=
  match params.ticker with
  | none => .error ("Yahoo Finance API error: " ++ "Error: Ticker is required for Yahoo Finance news")
  | some t =>
    if t = "" then
      .error ("Yahoo Finance API error: " ++ "Error: Ticker is required for Yahoo Finance news")
    else
      match api.search t with
      | .error e => .error ("Yahoo Finance API error: " ++ e)
      | .ok res =>
        .ok ⟨Json.obj [("news", jsOr (res.getField "news") (Json.arr []))],
          "yahoo-finance:" ++ t ++ ":news"⟩

/-- Operation table of `YahooFinanceProvider`: the class implements the seven
required methods plus `getNews`; `getAnalystEstimates`, `getInsiderTrades`,
`getFilings` and `getSegmentedRevenues` are absent (duck-typed optional members
of the interface). -/
def YahooFinanceProvider.ops (api : YahooApi) :
    (c : Capability) → Option (CapParams c → Except String ProviderResponse)
  | .incomeStatements => some (YahooFinanceProvider.getIncomeStatements api)
  | .balanceSheets => some (YahooFinanceProvider.getBalanceSheets api)
  | .cashFlowStatements => some (YahooFinanceProvider.getCashFlowStatements api)
  | .allFinancialStatements => some (YahooFinanceProvider.getAllFinancialStatements api)
  | .priceSnapshot => some (YahooFinanceProvider.getPriceSnapshot api)
  | .priceHistory => some (YahooFinanceProvider.getPriceHistory api)
  | .financialMetrics => some (YahooFinanceProvider.getFinancialMetrics api)
  | .news => some (YahooFinanceProvider.getNews api)
  | .analystEstimates => none
  | .insiderTrades => none
  | .filings => none
  | .segmentedRevenues => none

/-- Value of one query parameter of `callApi` (`string | number | string[]`). -/
inductive QueryVal where
  | str (s : String)
  | num (n : Nat)
  | strList (xs : List String)

/-- URL query pairs: `undefined`/`null` values are skipped, arrays append one
pair per element (financial-datasets-provider.ts lines 66-74). -/
def queryPairs : List (String × Option QueryVal) → List (String × String)
  | [] => []
  | (_, none) :: rest => queryPairs rest
  | (k, some (QueryVal.str s)) :: rest => (k, s) :: queryPairs rest
  | (k, some (QueryVal.num n)) :: rest => (k, toString n) :: queryPairs rest
  | (k, some (QueryVal.strList xs)) :: rest => xs.map (fun x => (k, x)) ++ queryPairs rest

/-- Serialized query string (percent-encoding of `URLSearchParams` abstracted:
the values the source passes are plain tickers, periods and dates). -/
def buildQuery (ps : List (String × String)) : String :=
  String.intercalate "&" (ps.map (fun p => p.1 ++ "=" ++ p.2))

/-- `url.toString()` for `new URL(BASE_URL + endpoint)` with the appended search
parameters (lines 63-74); `BASE_URL = 'https://api.financialdatasets.ai'`. -/
def buildUrl (endpoint : String) (ps : List (String × Option QueryVal)) : String :=
  let q := buildQuery (queryPairs ps)
  "https://api.financialdatasets.ai" ++ endpoint ++ (if q = "" then "" else "?" ++ q)

/-- Oracle for `fetch` + `response.json()`: a rejected request, a non-ok HTTP
status, or a body-parse failure is `.error`; otherwise the parsed body. -/
structure FdApi where
  fetch : String → Except String Json

/-- `FinancialDatasetsProvider.callApi` (lines 46-95), modelled in its
cache-disabled configuration (`DISABLE_CACHE`; the advisory cache layer it
consults is the `CacheService` verified above): require an API key, build the
URL, fetch, and return the parsed body together with the URL string. -/
def FinancialDatasetsProvider.callApi (api : FdApi) (apiKey : Option String)
    (endpoint : String) (ps : List (String × Option QueryVal)) :
    Except String (Json × String) :=
  match apiKey with
  | none => .error "API key not configured"
  | some _ =>
    match api.fetch (buildUrl endpoint ps) with
    | .error e => .error e
    | .ok data => .ok (data, buildUrl endpoint ps)

/-- Response envelope every FinancialDatasets method builds from a `callApi`
result: `{ data: data.<field> || {}, source: url }`. -/
def envelope (field : String) (res : Except String (Json × String)) :
    Except String ProviderResponse :=
  match res with
  | .error e => .error e
  | .ok (data, url) => .ok ⟨jsOr (data.getField field) (Json.obj []), url⟩

/-- `createFinancialStatementsParams` (lines 97-109). -/
def createFinancialStatementsParams (params : FinancialStatementsParams) :
    List (String × Option QueryVal) :=
  [("ticker", some (QueryVal.str params.ticker)),
   ("period", some (QueryVal.str (periodString params.period))),
   ("limit", params.limit.map QueryVal.num),
   ("report_period_gt", params.report_period_gt.map QueryVal.str),
   ("report_period_gte", params.report_period_gte.map QueryVal.str),
   ("report_period_lt", params.report_period_lt.map QueryVal.str),
   ("report_period_lte", params.report_period_lte.map QueryVal.str)]

/-- Operation table of `FinancialDatasetsProvider` (lines 111-211): every
capability—including all optional ones—is implemented as an `envelope` around a
`callApi` to the matching endpoint. -/
def FinancialDatasetsProvider.ops (api : FdApi) (apiKey : Option String) :
    (c : Capability) → Option (CapParams c → Except String ProviderResponse)
  | .incomeStatements => some (fun params =>
      envelope "income_statements" (FinancialDatasetsProvider.callApi api apiKey
        "/financials/income-statements/" (createFinancialStatementsParams params)))
  | .balanceSheets => some (fun params =>
      envelope "balance_sheets" (FinancialDatasetsProvider.callApi api apiKey
        "/financials/balance-sheets/" (createFinancialStatementsParams params)))
  | .cashFlowStatements => some (fun params =>
      envelope "cash_flow_statements" (FinancialDatasetsProvider.callApi api apiKey
        "/financials/cash-flow-statements/" (createFinancialStatementsParams params)))
  | .allFinancialStatements => some (fun params =>
      envelope "financials" (FinancialDatasetsProvider.callApi api apiKey
        "/financials/" (createFinancialStatementsParams params)))
  | .priceSnapshot => some (fun params =>
      envelope "prices" (FinancialDatasetsProvider.callApi api apiKey "/prices/"
        [("ticker", some (QueryVal.str params.ticker)),
         ("date", params.date.map QueryVal.str)]))
  | .priceHistory => some (fun params =>
      envelope "prices" (FinancialDatasetsProvider.callApi api apiKey "/prices/"
        [("ticker", some (QueryVal.str params.ticker)),
         ("start_date", params.start_date.map QueryVal.str),
         ("end_date", params.end_date.map QueryVal.str),
         ("limit", params.limit.map QueryVal.num)]))
  | .financialMetrics => some (fun params =>
      envelope "metrics" (FinancialDatasetsProvider.callApi api apiKey
        "/financials/metrics/"
        [("ticker", some (QueryVal.str params.ticker)),
         ("period", params.period.map (fun p => QueryVal.str (periodString p))),
         ("limit", params.limit.map QueryVal.num)]))
  | .news => some (fun params =>
      envelope "news" (FinancialDatasetsProvider.callApi api apiKey "/news/"
        [("ticker", params.ticker.map QueryVal.str),
         ("query", params.query.map QueryVal.str),
         ("start_date", params.start_date.map QueryVal.str),
         ("end_date", params.end_date.map QueryVal.str),
         ("limit", params.limit.map QueryVal.num)]))
  | .analystEstimates => some (fun params =>
      envelope "analyst_estimates" (FinancialDatasetsProvider.callApi api apiKey
        "/analyst-estimates/"
        [("ticker", some (QueryVal.str params.ticker)),
         ("period", params.period.map (fun p => QueryVal.str (periodString p))),
         ("limit", params.limit.map QueryVal.num)]))
  | .insiderTrades => some (fun params =>
      envelope "insider_trades" (FinancialDatasetsProvider.callApi api apiKey
        "/insider-trades/"
        [("ticker", some (QueryVal.str params.ticker)),
         ("start_date", params.start_date.map QueryVal.str),
         ("end_date", params.end_date.map QueryVal.str),
         ("limit", params.limit.map QueryVal.num)]))
  | .filings => some (fun params =>
      envelope "filings" (FinancialDatasetsProvider.callApi api apiKey "/filings/"
        [("ticker", some (QueryVal.str params.ticker)),
         ("form_type", params.form_type.map QueryVal.strList),
         ("start_date", params.start_date.map QueryVal.str),
         ("end_date", params.end_date.map QueryVal.str),
         ("limit", params.limit.map QueryVal.num)]))
  | .segmentedRevenues => some (fun params =>
      envelope "segments" (FinancialDatasetsProvider.callApi api apiKey "/segments/"
        [("ticker", some (QueryVal.str params.ticker)),
         ("period", some (QueryVal.str (periodString params.period))),
         ("limit", params.limit.map QueryVal.num)]))

/-- A registered provider: its capability-indexed operation table (spec §4.3,
§9: an explicit capability descriptor computed at registration). -/
structure Provider where
  ops : (c : Capability) → Option (CapParams c → Except String ProviderResponse)

/-- Dispatch error taxonomy of the registry. -/
inductive DispatchError where
  | unsupportedCapability (c : Capability)
  | providerError (message : String)

/-- Modelled from the spec: the ProviderRegistry's dispatch ("maps a capability
name to a concrete provider operation … Dispatch on an unsupported capability
fails with UnsupportedCapability, never with a crash").  The registry and the
orchestration call sites are not under `src/`; the operation tables above are
taken from the provider classes that are. -/
def registryDispatch (p : Provider) (c : Capability) (args : CapParams c) :
    Except DispatchError ProviderResponse :=
  match p.ops c with
  | none => Except.error (DispatchError.unsupportedCapability c)
  | some f =>
    match f args with
    | .ok r => Except.ok r
    | .error e => Except.error (DispatchError.providerError e)

/-- The Yahoo Finance provider as registered. -/
def yahooProvider (api : YahooApi) : Provider := ⟨YahooFinanceProvider.ops api⟩

/-- The FinancialDatasets provider as registered. -/
def financialDatasetsProvider (api : FdApi) (apiKey : Option String) : Provider :=
  ⟨FinancialDatasetsProvider.ops api apiKey⟩

/-- C6: dispatching a capability the provider does not support fails with
`UnsupportedCapability` — never a crash: `registryDispatch` is a total function
and returns the typed error for every absent operation.  In particular the
Yahoo Finance provider lacks analyst estimates, insider trades, filings and
segment revenues, so those dispatches yield `UnsupportedCapability` (news is
among the optional capabilities but Yahoo implements it; FinancialDatasets lacks
nothing). -/
theorem dispatch_unsupported_capability :
    (∀ (p : Provider) (c : Capability) (args : CapParams c), p.ops c = none →
      registryDispatch p c args = Except.error (DispatchError.unsupportedCapability c)) ∧
    (∀ api : YahooApi,
      (yahooProvider api).ops Capability.analystEstimates = none ∧
      (yahooProvider api).ops Capability.insiderTrades = none ∧
      (yahooProvider api).ops Capability.filings = none ∧
      (yahooProvider api).ops Capability.segmentedRevenues = none) := by
  constructor
  · intro p c args h
    simp [registryDispatch, h]
  · intro api
    exact ⟨rfl, rfl, rfl, rfl⟩

/-- Yahoo oracle with trivially resolving calls, used to instantiate the
provider theorems. -/
def apiW : YahooApi :=
  ⟨fun _ => .ok Json.null, fun _ => .ok Json.null, fun _ => .ok Json.null,
   fun _ => .ok Json.null, "2026-01-01"⟩

/-- Concrete insider-trades arguments for the dispatch witnesses. -/
def insiderArgsW : InsiderTradesParams := ⟨"AAPL", none, none, none⟩

theorem dispatch_unsupported_capability_witness :
    (yahooProvider apiW).ops Capability.insiderTrades = none ∧
    registryDispatch (yahooProvider apiW) Capability.insiderTrades insiderArgsW
      = Except.error (DispatchError.unsupportedCapability Capability.insiderTrades) :=
  ⟨rfl, dispatch_unsupported_capability.1 (yahooProvider apiW) Capability.insiderTrades
    insiderArgsW rfl⟩

theorem append_ne_empty_of_left (a t : String) (ha : a ≠ "") : a ++ t ≠ "" := by
  intro hc
  have hdata : a.data ++ t.data = [] := by
    have := congrArg String.data hc
    simpa [String.data_append] using this
  exact ha (String.ext (List.append_eq_nil.mp hdata).1)

theorem registryDispatch_ok (p : Provider) (c : Capability) (args : CapParams c)
    (r : ProviderResponse) (h : registryDispatch p c args = .ok r) :
    ∃ f, p.ops c = some f ∧ f args = .ok r := by
  unfold registryDispatch at h
  cases hop : p.ops c with
  | none => rw [hop] at h; simp at h
  | some f =>
    rw [hop] at h
    dsimp only at h
    cases hf : f args with
    | error e => rw [hf] at h; simp at h
    | ok r' =>
      rw [hf] at h
      simp only [Except.ok.injEq] at h
      exact ⟨f, rfl, by rw [hf, h]⟩

theorem yahoo_income_source (api : YahooApi) (args : FinancialStatementsParams)
    (r : ProviderResponse)
    (h : YahooFinanceProvider.getIncomeStatements api args = .ok r) : r.source ≠ "" := by
  unfold YahooFinanceProvider.getIncomeStatements at h
  cases hq : api.quoteSummary args.ticker with
  | error e => rw [hq] at h; simp at h
  | ok qs =>
    rw [hq] at h
    simp only [Except.ok.injEq] at h
    rw [← h]
    exact append_ne_empty_of_left _ _ (append_ne_empty_of_left _ _
      (append_ne_empty_of_left _ _ (by decide)))

theorem yahoo_balance_source (api : YahooApi) (args : FinancialStatementsParams)
    (r : ProviderResponse)
    (h : YahooFinanceProvider.getBalanceSheets api args = .ok r) : r.source ≠ "" := by
  unfold YahooFinanceProvider.getBalanceSheets at h
  cases hq : api.quoteSummary args.ticker with
  | error e => rw [hq] at h; simp at h
  | ok qs =>
    rw [hq] at h
    simp only [Except.ok.injEq] at h
    rw [← h]
    exact append_ne_empty_of_left _ _ (append_ne_empty_of_left _ _
      (append_ne_empty_of_left _ _ (by decide)))

theorem yahoo_cashflow_source (api : YahooApi) (args : FinancialStatementsParams)
    (r : ProviderResponse)
    (h : YahooFinanceProvider.getCashFlowStatements api args = .ok r) : r.source ≠ "" := by
  unfold YahooFinanceProvider.getCashFlowStatements at h
  cases hq : api.quoteSummary args.ticker with
  | error e => rw [hq] at h; simp at h
  | ok qs =>
    rw [hq] at h
    simp only [Except.ok.injEq] at h
    rw [← h]
    exact append_ne_empty_of_left _ _ (append_ne_empty_of_left _ _
      (append_ne_empty_of_left _ _ (by decide)))

theorem yahoo_all_source (api : YahooApi) (args : FinancialStatementsParams)
    (r : ProviderResponse)
    (h : YahooFinanceProvider.getAllFinancialStatements api args = .ok r) :
    r.source ≠ "" := by
  unfold YahooFinanceProvider.getAllFinancialStatements at h
  cases h1 : YahooFinanceProvider.getIncomeStatements api args with
  | error e => rw [h1] at h; simp at h
  | ok inc =>
    cases h2 : YahooFinanceProvider.getBalanceSheets api args with
    | error e => rw [h1, h2] at h; simp at h
    | ok bal =>
      cases h3 : YahooFinanceProvider.getCashFlowStatements api args with
      | error e => rw [h1, h2, h3] at h; simp at h
      | ok cf =>
        rw [h1, h2, h3] at h
        simp only [Except.ok.injEq] at h
        rw [← h]
        exact append_ne_empty_of_left _ _ (append_ne_empty_of_left _ _
          (append_ne_empty_of_left _ _ (by decide)))

theorem yahoo_snapshot_source (api : YahooApi) (args : PriceParams)
    (r : ProviderResponse)
    (h : YahooFinanceProvider.getPriceSnapshot api args = .ok r) : r.source ≠ "" := by
  unfold YahooFinanceProvider.getPriceSnapshot at h
  cases hq : api.quote args.ticker with
  | error e => rw [hq] at h; simp at h
  | ok q =>
    rw [hq] at h
    simp only [Except.ok.injEq] at h
    rw [← h]
    exact append_ne_empty_of_left _ _ (append_ne_empty_of_left _ _ (by decide))

theorem yahoo_history_source (api : YahooApi) (args : PriceHistoryParams)
    (r : ProviderResponse)
    (h : YahooFinanceProvider.getPriceHistory api args = .ok r) : r.source ≠ "" := by
  unfold YahooFinanceProvider.getPriceHistory at h
  cases hq : api.historical args.ticker with
  | error e => rw [hq] at h; simp at h
  | ok history =>
    rw [hq] at h
    simp only [Except.ok.injEq] at h
    rw [← h]
    exact append_ne_empty_of_left _ _ (append_ne_empty_of_left _ _ (by decide))

theorem yahoo_metrics_source (api : YahooApi) (args : MetricsParams)
    (r : ProviderResponse)
    (h : YahooFinanceProvider.getFinancialMetrics api args = .ok r) : r.source ≠ "" := by
  unfold YahooFinanceProvider.getFinancialMetrics at h
  cases hq : api.quoteSummary args.ticker with
  | error e => rw [hq] at h; simp at h
  | ok qs =>
    rw [hq] at h
    simp only [Except.ok.injEq] at h
    rw [← h]
    exact append_ne_empty_of_left _ _ (append_ne_empty_of_left _ _ (by decide))

theorem yahoo_news_source (api : YahooApi) (args : NewsParams)
    (r : ProviderResponse)
    (h : YahooFinanceProvider.getNews api args = .ok r) : r.source ≠ "" := by
  unfold YahooFinanceProvider.getNews at h
  cases hticker : args.ticker with
  | none => rw [hticker] at h; simp at h
  | some t =>
    rw [hticker] at h
    dsimp only at h
    by_cases ht : t = ""
    · rw [if_pos ht] at h; simp at h
    · rw [if_neg ht] at h
      cases hq : api.search t with
      | error e => rw [hq] at h; simp at h
      | ok res =>
        rw [hq] at h
        simp only [Except.ok.injEq] at h
        rw [← h]
        exact append_ne_empty_of_left _ _ (append_ne_empty_of_left _ _ (by decide))

theorem envelope_callApi_source (api : FdApi) (key : Option String)
    (field endpoint : String) (ps : List (String × Option QueryVal))
    (r : ProviderResponse)
    (h : envelope field (FinancialDatasetsProvider.callApi api key endpoint ps) = .ok r) :
    r.source ≠ "" := by
  unfold envelope FinancialDatasetsProvider.callApi at h
  cases key with
  | none => simp at h
  | some k =>
    cases hf : api.fetch (buildUrl endpoint ps) with
    | error e => rw [hf] at h; simp at h
    | ok data =>
      rw [hf] at h
      simp only [Except.ok.injEq] at h
      rw [← h]
      show buildUrl endpoint ps ≠ ""
      unfold buildUrl
      exact append_ne_empty_of_left _ _ (append_ne_empty_of_left _ _ (by decide))

/-- C8: every successful dispatch, on both registered providers, returns an
envelope `{data, source}` whose `source` is a non-empty string: a
FinancialDatasets source is the request URL (it starts with the API base URL)
and a Yahoo source is the synthetic provenance identifier
`yahoo-finance:<ticker>:<operation>…`, so either is usable for citation. -/
theorem dispatch_source_nonempty (yapi : YahooApi) (fapi : FdApi)
    (apiKey : Option String) (c : Capability) (r : ProviderResponse) :
    (∀ args : CapParams c,
      registryDispatch (yahooProvider yapi) c args = .ok r → r.source ≠ "") ∧
    (∀ args : CapParams c,
      registryDispatch (financialDatasetsProvider fapi apiKey) c args = .ok r →
      r.source ≠ "") := by
  constructor
  · intro args h
    obtain ⟨f, hop, hf⟩ := registryDispatch_ok _ _ _ _ h
    cases c with
    | incomeStatements =>
      simp only [yahooProvider, YahooFinanceProvider.ops, Option.some.injEq] at hop
      rw [← hop] at hf
      exact yahoo_income_source yapi args r hf
    | balanceSheets =>
      simp only [yahooProvider, YahooFinanceProvider.ops, Option.some.injEq] at hop
      rw [← hop] at hf
      exact yahoo_balance_source yapi args r hf
    | cashFlowStatements =>
      simp only [yahooProvider, YahooFinanceProvider.ops, Option.some.injEq] at hop
      rw [← hop] at hf
      exact yahoo_cashflow_source yapi args r hf
    | allFinancialStatements =>
      simp only [yahooProvider, YahooFinanceProvider.ops, Option.some.injEq] at hop
      rw [← hop] at hf
      exact yahoo_all_source yapi args r hf
    | priceSnapshot =>
      simp only [yahooProvider, YahooFinanceProvider.ops, Option.some.injEq] at hop
      rw [← hop] at hf
      exact yahoo_snapshot_source yapi args r hf
    | priceHistory =>
      simp only [yahooProvider, YahooFinanceProvider.ops, Option.some.injEq] at hop
      rw [← hop] at hf
      exact yahoo_history_source yapi args r hf
    | financialMetrics =>
      simp only [yahooProvider, YahooFinanceProvider.ops, Option.some.injEq] at hop
      rw [← hop] at hf
      exact yahoo_metrics_source yapi args r hf
    | news =>
      simp only [yahooProvider, YahooFinanceProvider.ops, Option.some.injEq] at hop
      rw [← hop] at hf
      exact yahoo_news_source yapi args r hf
    | analystEstimates => simp [yahooProvider, YahooFinanceProvider.ops] at hop
    | insiderTrades => simp [yahooProvider, YahooFinanceProvider.ops] at hop
    | filings => simp [yahooProvider, YahooFinanceProvider.ops] at hop
    | segmentedRevenues => simp [yahooProvider, YahooFinanceProvider.ops] at hop
  · intro args h
    obtain ⟨f, hop, hf⟩ := registryDispatch_ok _ _ _ _ h
    cases c with
    | incomeStatements =>
      simp only [financialDatasetsProvider, FinancialDatasetsProvider.ops,
        Option.some.injEq] at hop
      rw [← hop] at hf
      exact envelope_callApi_source fapi apiKey _ _ _ r hf
    | balanceSheets =>
      simp only [financialDatasetsProvider, FinancialDatasetsProvider.ops,
        Option.some.injEq] at hop
      rw [← hop] at hf
      exact envelope_callApi_source fapi apiKey _ _ _ r hf
    | cashFlowStatements =>
      simp only [financialDatasetsProvider, FinancialDatasetsProvider.ops,
        Option.some.injEq] at hop
      rw [← hop] at hf
      exact envelope_callApi_source fapi apiKey _ _ _ r hf
    | allFinancialStatements =>
      simp only [financialDatasetsProvider, FinancialDatasetsProvider.ops,
        Option.some.injEq] at hop
      rw [← hop] at hf
      exact envelope_callApi_source fapi apiKey _ _ _ r hf
    | priceSnapshot =>
      simp only [financialDatasetsProvider, FinancialDatasetsProvider.ops,
        Option.some.injEq] at hop
      rw [← hop] at hf
      exact envelope_callApi_source fapi apiKey _ _ _ r hf
    | priceHistory =>
      simp only [financialDatasetsProvider, FinancialDatasetsProvider.ops,
        Option.some.injEq] at hop
      rw [← hop] at hf
      exact envelope_callApi_source fapi apiKey _ _ _ r hf
    | financialMetrics =>
      simp only [financialDatasetsProvider, FinancialDatasetsProvider.ops,
        Option.some.injEq] at hop
      rw [← hop] at hf
      exact envelope_callApi_source fapi apiKey _ _ _ r hf
    | news =>
      simp only [financialDatasetsProvider, FinancialDatasetsProvider.ops,
        Option.some.injEq] at hop
      rw [← hop] at hf
      exact envelope_callApi_source fapi apiKey _ _ _ r hf
    | analystEstimates =>
      simp only [financialDatasetsProvider, FinancialDatasetsProvider.ops,
        Option.some.injEq] at hop
      rw [← hop] at hf
      exact envelope_callApi_source fapi apiKey _ _ _ r hf
    | insiderTrades =>
      simp only [financialDatasetsProvider, FinancialDatasetsProvider.ops,
        Option.some.injEq] at hop
      rw [← hop] at hf
      exact envelope_callApi_source fapi apiKey _ _ _ r hf
    | filings =>
      simp only [financialDatasetsProvider, FinancialDatasetsProvider.ops,
        Option.some.injEq] at hop
      rw [← hop] at hf
      exact envelope_callApi_source fapi apiKey _ _ _ r hf
    | segmentedRevenues =>
      simp only [financialDatasetsProvider, FinancialDatasetsProvider.ops,
        Option.some.injEq] at hop
      rw [← hop] at hf
      exact envelope_callApi_source fapi apiKey _ _ _ r hf

/-- FinancialDatasets oracle with trivially resolving fetches. -/
def fdApiW : FdApi := ⟨fun _ => .ok Json.null⟩

/-- The envelope the FinancialDatasets price-snapshot dispatch returns under
`fdApiW`. -/
def fdRespW : ProviderResponse :=
  ⟨Json.obj [], "https://api.financialdatasets.ai/prices/?ticker=AAPL"⟩

theorem dispatch_source_nonempty_witness :
    registryDispatch (financialDatasetsProvider fdApiW (some "key"))
      Capability.priceSnapshot (⟨"AAPL", none⟩ : PriceParams) = Except.ok fdRespW ∧
    fdRespW.source ≠ "" :=
  ⟨rfl, (dispatch_source_nonempty apiW fdApiW (some "key") Capability.priceSnapshot
    fdRespW).2 (⟨"AAPL", none⟩ : PriceParams) rfl⟩

/-- Modelled from the spec: phases of the ReflectorLoop state machine (§4.7);
the orchestration loop's source is not under `src/`. -/
inductive Phase where
  | planning
  | executing
  | validating
  | reflecting
  | synthesizing
  | done
  | aborted
deriving DecidableEq

/-- Modelled from the spec: a ResearchTask (§3) — a capability name with its canonicalized
argument set. -/
structure ResearchTask where
  capability : Capability
  args : List (String × Json)

/-- Kebab-case capability names as the Planner emits them (spec §3 example:
`income-statements`). -/
def capabilityName : Capability → String
  | .incomeStatements => "income-statements"
  | .balanceSheets => "balance-sheets"
  | .cashFlowStatements => "cash-flow-statements"
  | .allFinancialStatements => "all-financial-statements"
  | .priceSnapshot => "price-snapshot"
  | .priceHistory => "price-history"
  | .financialMetrics => "financial-metrics"
  | .news => "news"
  | .analystEstimates => "analyst-estimates"
  | .insiderTrades => "insider-trades"
  | .filings => "filings"
  | .segmentedRevenues => "segmented-revenues"

/-- Modelled from the spec: the digest of `(capability, canonicalized-args)`
shared by the cache and the loop detector (§4.7, §9 — canonicalization is the
one explicit order-independent function, `canonicalParams` above). -/
def taskDigest (t : ResearchTask) : String :=
  capabilityName t.capability ++ ":" ++ canonicalParams t.args

/-- Modelled from the spec: the Budget attached to a Session (§3), monotonically
increasing. -/
structure Budget where
  stepsUsed : Nat
  maxSteps : Nat
  costUsed : Nat
  maxCost : Nat

/-- Modelled from the spec: a cap is exceeded once the used steps reach
`maxSteps` (each Executor invocation consumes one step, so the step cap is the
number of allowed invocations) or the accumulated cost reaches `maxCost`. -/
def Budget.exceeded (b : Budget) : Bool :=
  b.maxSteps ≤ b.stepsUsed || b.maxCost ≤ b.costUsed

/-- Modelled from the spec: Validator verdicts (§4.6). -/
inductive Verdict where
  | satisfied
  | insufficient (reason : String)
  | error (reason : String)

/-- Modelled from the spec: the ReflectorLoop's in-memory state — current phase,
the current wave and its not-yet-dispatched tasks, the last wave's verdicts, the
accumulated artifacts, the rolling digest record of the loop detector, the
budget, the total count of Executor invocations, and the stalled flag. -/
structure ReflectorState where
  phase : Phase
  wave : List ResearchTask
  pending : List ResearchTask
  verdicts : List Verdict
  artifacts : List ProviderResponse
  digests : List String
  budget : Budget
  executorCalls : Nat
  stalled : Bool

/-- Modelled from the spec: the environment of one loop run — a Planner of
arbitrary behavior (any function of the observable state), the Executor outcome
oracle (a settled artifact, or `none` for a failed task), the estimated cost per
dispatch, the Validator, and the loop-detector threshold. -/
structure LoopConfig where
  planner : ReflectorState → List ResearchTask
  execute : ResearchTask → Option ProviderResponse
  cost : ResearchTask → Nat
  validate : ResearchTask → Verdict
  loopThreshold : Nat

/-- All verdicts of the wave are Satisfied. -/
def allSatisfied (vs : List Verdict) : Bool :=
  vs.all (fun v => match v with | .satisfied => true | _ => false)

/-- Some verdict is an Error. -/
def anyError (vs : List Verdict) : Bool :=
  vs.any (fun v => match v with | .error _ => true | _ => false)

/-- Modelled from the spec: the loop detector trips when some digest recurs
beyond the fixed threshold (§4.7). -/
def detectorTripped (threshold : Nat) (digests : List String) : Bool :=
  digests.any (fun d => threshold < digests.count d)

/-- Modelled from the spec: one transition of the ReflectorLoop (§4.7).
Planning aborts on an empty plan and otherwise enters Executing only when the
budgets are not exceeded; Executing dispatches the pending tasks one at a time,
each dispatch guarded by the budget (`stepsUsed` increments once per Executor
dispatch regardless of outcome, cost accumulates per dispatch, the digest is
recorded, a successful dispatch appends its artifact) and a wave is fully
settled before Validating (the barrier); Validating produces the wave's
verdicts; Reflecting forces Synthesizing when a cap is exceeded — keeping the
partial artifacts — or when all tasks are satisfied, forces stalled-Synthesizing
when the loop detector trips, aborts when an error verdict leaves zero usable
artifacts, and otherwise re-plans; Synthesizing closes the session. -/
def ReflectorLoop.step (cfg : LoopConfig) (s : ReflectorState) : ReflectorState :=
  match s.phase with
  | .planning =>
    let plan := cfg.planner s
    if plan.isEmpty then { s with phase := .aborted }
    else if s.budget.exceeded then { s with phase := .synthesizing }
    else { s with phase := .executing, wave := plan, pending := plan, verdicts := [] }
  | .executing =>
    match s.pending with
    | [] => { s with phase := .validating }
    | t :: rest =>
      if s.budget.exceeded then { s with phase := .synthesizing, stalled := true }
      else
        { s with
          pending := rest,
          budget := { s.budget with
                      stepsUsed := s.budget.stepsUsed + 1
                      costUsed := s.budget.costUsed + cfg.cost t },
          executorCalls := s.executorCalls + 1,
          digests := s.digests ++ [taskDigest t],
          artifacts := s.artifacts ++
            (match cfg.execute t with | some a => [a] | none => []) }
  | .validating =>
    { s with phase := .reflecting, verdicts := s.wave.map cfg.validate }
  | .reflecting =>
    if s.budget.exceeded then { s with phase := .synthesizing }
    else if allSatisfied s.verdicts then { s with phase := .synthesizing }
    else if detectorTripped cfg.loopThreshold s.digests then
      { s with phase := .synthesizing, stalled := true }
    else if anyError s.verdicts && s.artifacts.isEmpty then { s with phase := .aborted }
    else { s with phase := .planning }
  | .synthesizing => { s with phase := .done }
  | .done => s
  | .aborted => s

/-- Modelled from the spec: run the loop for at most `fuel` transitions. -/
def ReflectorLoop.run (cfg : LoopConfig) : Nat → ReflectorState → ReflectorState
  | 0, s => s
  | fuel + 1, s => ReflectorLoop.run cfg fuel (ReflectorLoop.step cfg s)

/-- Modelled from the spec: the initial state of a Session's loop — Planning,
nothing dispatched, fresh budget. -/
def initState (maxSteps maxCost : Nat) : ReflectorState :=
  { phase := Phase.planning, wave := [], pending := [], verdicts := [], artifacts := [],
    digests := [],
    budget := { stepsUsed := 0, maxSteps := maxSteps, costUsed := 0, maxCost := maxCost },
    executorCalls := 0, stalled := false }

/-- Budget bookkeeping invariant of the loop: the ghost Executor-invocation
counter equals `stepsUsed`, which never passes `maxSteps`, and `maxSteps` is
constant. -/
def budgetInv (m : Nat) (s : ReflectorState) : Prop :=
  s.executorCalls = s.budget.stepsUsed ∧ s.budget.stepsUsed ≤ s.budget.maxSteps ∧
  s.budget.maxSteps = m

theorem step_preserves_budgetInv (cfg : LoopConfig) (m : Nat) (s : ReflectorState)
    (h : budgetInv m s) : budgetInv m (ReflectorLoop.step cfg s) := by
  obtain ⟨h1, h2, h3⟩ := h
  unfold ReflectorLoop.step
  cases hph : s.phase <;> dsimp only
  case planning =>
    split
    · exact ⟨h1, h2, h3⟩
    · split
      · exact ⟨h1, h2, h3⟩
      · exact ⟨h1, h2, h3⟩
  case executing =>
    cases hp : s.pending with
    | nil => exact ⟨h1, h2, h3⟩
    | cons t rest =>
      dsimp only
      by_cases hexc : s.budget.exceeded = true
      · simp only [hexc, if_true]
        exact ⟨h1, h2, h3⟩
      · simp only [Bool.not_eq_true] at hexc
        simp only [hexc, Bool.false_eq_true, if_false]
        have hlt : s.budget.stepsUsed < s.budget.maxSteps := by
          simp only [Budget.exceeded, Bool.or_eq_false_iff, decide_eq_false_iff_not,
            not_le] at hexc
          exact hexc.1
        refine ⟨?_, ?_, ?_⟩ <;> dsimp only <;> omega
  case validating => exact ⟨h1, h2, h3⟩
  case reflecting =>
    split
    · exact ⟨h1, h2, h3⟩
    · split
      · exact ⟨h1, h2, h3⟩
      · split
        · exact ⟨h1, h2, h3⟩
        · split
          · exact ⟨h1, h2, h3⟩
          · exact ⟨h1, h2, h3⟩
  case synthesizing => exact ⟨h1, h2, h3⟩
  case done => exact ⟨h1, h2, h3⟩
  case aborted => exact ⟨h1, h2, h3⟩

theorem run_preserves_budgetInv (cfg : LoopConfig) (m fuel : Nat) (s : ReflectorState)
    (h : budgetInv m s) : budgetInv m (ReflectorLoop.run cfg fuel s) := by
  induction fuel generalizing s with
  | zero => exact h
  | succ n ih => exact ih _ (step_preserves_budgetInv cfg m s h)

/-- C1: budget cap of the loop.  For any Planner behavior, any Executor/Validator
oracles and any run length, a Session's loop starting from the initial state
invokes the Executor at most `maxSteps` times; and whenever a cap is exceeded at
Reflecting, the next transition is into Synthesizing with the partial artifacts
retained rather than continuing. -/
theorem reflector_budget_cap (cfg : LoopConfig) (fuel maxSteps maxCost : Nat) :
    (ReflectorLoop.run cfg fuel (initState maxSteps maxCost)).executorCalls ≤ maxSteps ∧
    (∀ s : ReflectorState, s.phase = Phase.reflecting → s.budget.exceeded = true →
      (ReflectorLoop.step cfg s).phase = Phase.synthesizing ∧
      (ReflectorLoop.step cfg s).artifacts = s.artifacts) := by
  constructor
  · have h := run_preserves_budgetInv cfg maxSteps fuel (initState maxSteps maxCost)
      ⟨rfl, Nat.zero_le _, rfl⟩
    obtain ⟨h1, h2, h3⟩ := h
    omega
  · intro s hph hexc
    unfold ReflectorLoop.step
    rw [hph]
    dsimp only
    rw [if_pos hexc]
    exact ⟨rfl, rfl⟩

/-- Loop environment used to instantiate C1: a Planner that keeps emitting the
same task forever. -/
def cfgW : LoopConfig :=
  ⟨fun _ => [⟨Capability.incomeStatements, [("ticker", Json.str "AAPL")]⟩],
   fun _ => none, fun _ => 1, fun _ => Verdict.satisfied, 3⟩

/-- A Reflecting state whose step budget is exhausted (`maxSteps = 3` dispatches
already made). -/
def stateW : ReflectorState :=
  { phase := Phase.reflecting, wave := [], pending := [], verdicts := [],
    artifacts := [⟨Json.null, "yahoo-finance:AAPL:income-statements:annual"⟩],
    digests := [], budget := ⟨3, 3, 3, 100⟩, executorCalls := 3, stalled := false }

theorem reflector_budget_cap_witness :
    stateW.phase = Phase.reflecting ∧ stateW.budget.exceeded = true ∧
    ((ReflectorLoop.step cfgW stateW).phase = Phase.synthesizing ∧
      (ReflectorLoop.step cfgW stateW).artifacts = stateW.artifacts) :=
  ⟨rfl, rfl, (reflector_budget_cap cfgW 20 3 100).2 stateW rfl rfl⟩
